import Mathlib

set_option maxHeartbeats 1000000

/-!
Shallow embedding of the fetch-suspense cache engine.

The repository has two designs in `src/fetch-suspense.ts`:
  * a tag-indexed design (`class FetchSuspense extends EventEmitter`,
    backed by `FetchCacheItem` from `src/fetch-cache-item.ts`), embedded
    below in the `FetchSuspense` namespace, and
  * a flat-list design (`class FetchSuspense` with a static
    `fetchCaches: FetchCache[]`), embedded in the `FlatFetchSuspense`
    namespace.

Mutable heap references are modelled by a heap `items : List (Nat × FetchCacheItem)`
of numeric ids; tag sequences store ids, so one item shared by several tags is
one heap cell, exactly as one JS object is shared by several arrays.
JS `deepEqual` is structural equality on the embedded request types.
A field holding `null`/`undefined` is `none`; the TS `x != null` test is
`Option.isSome`.  Promises are identified by the id of the item that owns
them; the list `transportCalls` records, in order, every underlying network
call issued (one per `FetchCacheItem` construction / flat cache creation).
-/

/-- Decoded response values (the parsed JSON or text body). -/
abbrev Val := Nat

/-- Errors thrown by the transport or by body decoding. -/
abbrev Err := Nat

/-- The TS `RequestInfo`: either a URL string or a structured `Request`
object (modelled as its URL plus its remaining fields). -/
inductive RequestInfo where
  | url (s : String)
  | request (requestUrl : String) (fields : List (String × String))
deriving DecidableEq

/-- The TS `RequestInit` options object, modelled as its fields. -/
structure RequestInit where
  fields : List (String × String)
deriving DecidableEq

/-- Outcome of the underlying transport + body decoding: success carries the
decoded body, which may itself be JSON `null` (modelled `none`). -/
inductive TransportResult where
  | success (data : Option Val)
  | failure (e : Err)
deriving DecidableEq

/-- `FetchCacheItem` from `src/fetch-cache-item.ts`: request identity,
lifespan, creation time (for the `setTimeout` expiry timer), the `error` and
`response` fields (both start `undefined` = `none`), and the `expired` flag. -/
structure FetchCacheItem where
  input : RequestInfo
  opts : Option RequestInit
  lifespan : Nat
  createdAt : Nat
  error : Option Err
  response : Option Val
  expired : Bool
deriving DecidableEq

/-- The `FetchCacheItem` constructor (fetch-cache-item.ts lines 21-30): fields
set from the arguments, `error`/`response` undefined, `expired` false.  The
constructor also immediately issues the transport call and (iff the lifespan
is nonzero) schedules the expiry timer; those effects are modelled at the
call sites (`createItem`, `FetchCacheItem.fireTimer`). -/
def mkFetchCacheItem (input : RequestInfo) (opts : Option RequestInit)
    (lifespan : Nat) (now : Nat) : FetchCacheItem :=
  ⟨input, opts, lifespan, now, none, none, false⟩

/-- `argsEqual` (fetch-cache-item.ts line 37-39):
`deepEqual(input, this.input) && deepEqual(opts, this.opts)`. -/
def FetchCacheItem.argsEqual (item : FetchCacheItem) (input : RequestInfo)
    (opts : Option RequestInit) : Bool :=
  decide (input = item.input) && decide (opts = item.opts)

/-- `urlEqual` (fetch-cache-item.ts line 45-47):
`this.input instanceof Request ? this.input.url === url : this.input === url`. -/
def FetchCacheItem.urlEqual (item : FetchCacheItem) (url : String) : Bool :=
  match item.input with
  | RequestInfo.url s => decide (s = url)
  | RequestInfo.request requestUrl _ => decide (requestUrl = url)

/-- `isExpired` (fetch-cache-item.ts line 52-54). -/
def FetchCacheItem.isExpired (item : FetchCacheItem) : Bool :=
  item.expired

/-- `setExpired` (fetch-cache-item.ts line 59-61): `this.expired = true`. -/
def FetchCacheItem.setExpired (item : FetchCacheItem) : FetchCacheItem :=
  { item with expired := true }

/-- Completion of `generateFetch` (fetch-cache-item.ts lines 78-87): on
success the decoded body (a JSON `null` body is `none`) is stored in
`response`; any error thrown by the transport or by `response.json()` /
`response.text()` is caught and stored in `error`. -/
def FetchCacheItem.settleFetch (item : FetchCacheItem)
    (res : TransportResult) : FetchCacheItem :=
  match res with
  | TransportResult.success data => { item with response := data }
  | TransportResult.failure e => { item with error := some e }

/-- Result of `getPromise` (fetch-cache-item.ts lines 66-73) once
`this.fetch` has settled: `if (this.error != null) throw this.error;
else return this.response`. -/
def FetchCacheItem.getPromiseResult (item : FetchCacheItem) :
    Except Err (Option Val) :=
  match item.error with
  | some e => Except.error e
  | none => Except.ok item.response

/-- The expiry timer callback (fetch-cache-item.ts lines 27-29):
`if (this.lifespan) setTimeout(() => this.expired = true, this.lifespan)`.
A timer exists iff `lifespan` is nonzero and it has fired by time `now`
iff `createdAt + lifespan ≤ now`. -/
def FetchCacheItem.fireTimer (now : Nat) (item : FetchCacheItem) :
    FetchCacheItem :=
  if item.lifespan ≠ 0 ∧ item.createdAt + item.lifespan ≤ now then
    item.setExpired
  else
    item

/-- The flat-list design's `FetchCache` record
(src/fetch-suspense.ts lines 185-191). -/
structure FetchCache where
  input : RequestInfo
  opts : Option RequestInit
  error : Option Err
  response : Option Val
deriving DecidableEq

namespace FlatFetchSuspense

/-- Flat-list `forceExpireRequest` (src/fetch-suspense.ts lines 269-271):
`this.fetchCaches = this.fetchCaches.filter(ele => !deepEqual(input, ele.input)
&& !deepEqual(opts, ele.opts))`. -/
def forceExpireRequest (fetchCaches : List FetchCache) (input : RequestInfo)
    (opts : Option RequestInit) : List FetchCache :=
  fetchCaches.filter
    (fun ele => !(decide (input = ele.input)) && !(decide (opts = ele.opts)))

/-- Flat-list `forceExpireURL` (src/fetch-suspense.ts lines 260-262). -/
def forceExpireURL (fetchCaches : List FetchCache) (uri : String) :
    List FetchCache :=
  fetchCaches.filter
    (fun ele => match ele.input with
      | RequestInfo.url s => !(decide (s = uri))
      | RequestInfo.request requestUrl _ => !(decide (requestUrl = uri)))

end FlatFetchSuspense

/-- Lookup of a heap id in the item heap (first binding wins, as a JS
reference resolves to the one object it denotes). -/
def lookupItem : List (Nat × FetchCacheItem) → Nat → Option FetchCacheItem
  | [], _ => none
  | p :: rest, id => if p.1 = id then some p.2 else lookupItem rest id

/-- Read a tag's entry sequence from `FetchSuspense.fetchCache`.  A tag never
referenced yields the empty sequence (the instance constructor,
src/fetch-suspense.ts lines 31-35, initialises every tag it uses to `[]`). -/
def getTag : List (String × List Nat) → String → List Nat
  | [], _ => []
  | p :: rest, tag => if p.1 = tag then p.2 else getTag rest tag

/-- Write a tag's entry sequence in `FetchSuspense.fetchCache`. -/
def setTag : List (String × List Nat) → String → List Nat →
    List (String × List Nat)
  | [], tag, ids => [(tag, ids)]
  | p :: rest, tag, ids =>
    if p.1 = tag then (tag, ids) :: rest else p :: setTag rest tag ids

/-- Global mutable state of the tag-indexed design: the item heap, the static
`fetchCache` (tag → ordered ids), the static `instances` list (each instance
reduced to its tag list, which is all notification uses), a fresh-id counter,
and the trace of issued transport calls. -/
structure CacheState where
  items : List (Nat × FetchCacheItem)
  fetchCache : List (String × List Nat)
  instances : List (List String)
  nextId : Nat
  transportCalls : List Nat
deriving DecidableEq

/-- One scan step of `Array.prototype.find` over a tag's entry sequence with
predicate `fun item => p item && !item.isExpired()`, returning the found
reference (id) together with the item it denotes. -/
def findInTag (s : CacheState) (p : FetchCacheItem → Bool) :
    List Nat → Option (Nat × FetchCacheItem)
  | [] => none
  | id :: rest =>
    match lookupItem s.items id with
    | some item =>
      if p item && !item.isExpired then some (id, item)
      else findInTag s p rest
    | none => findInTag s p rest

/-- The common shape of `findFetchURL` / `findFetchItem`
(src/fetch-suspense.ts lines 58-81): scan the instance's tags in order; in
each tag, `find` the first non-expired item satisfying `p`; first match
wins. -/
def findFetchBy (s : CacheState) (p : FetchCacheItem → Bool) :
    List String → Option (Nat × FetchCacheItem)
  | [] => none
  | tag :: rest =>
    match findInTag s p (getTag s.fetchCache tag) with
    | some r => some r
    | none => findFetchBy s p rest

/-- `findFetchItem` (src/fetch-suspense.ts lines 73-81): `findFetchBy` with
`item.argsEqual(input, opts)`. -/
def findFetchItem (tags : List String) (s : CacheState) (input : RequestInfo)
    (opts : Option RequestInit) : Option (Nat × FetchCacheItem) :=
  findFetchBy s (fun item => item.argsEqual input opts) tags

/-- `findFetchURL` (src/fetch-suspense.ts lines 58-66): `findFetchBy` with
`item.urlEqual(url)`. -/
def findFetchURL (tags : List String) (s : CacheState) (url : String) :
    Option (Nat × FetchCacheItem) :=
  findFetchBy s (fun item => item.urlEqual url) tags

/-- `cleanCache` (src/fetch-suspense.ts lines 86-91): for each of the
instance's tags, filter out the currently-expired items from that tag's
sequence.  The heap is untouched: cleanup drops references, not objects. -/
def cleanCache (tags : List String) (s : CacheState) : CacheState :=
  { s with
    fetchCache := tags.foldl
      (fun c tag => setTag c tag ((getTag c tag).filter
        (fun id => match lookupItem s.items id with
          | some item => !item.isExpired
          | none => true)))
      s.fetchCache }

/-- `new FetchCacheItem(input, opts, lifespan)` inside the registry: allocates
a fresh heap cell and, because construction immediately performs the network
request (fetch-cache-item.ts line 25), appends the new id to the transport
trace.  Returns the new reference. -/
def createItem (input : RequestInfo) (opts : Option RequestInit)
    (lifespan : Nat) (now : Nat) (s : CacheState) : Nat × CacheState :=
  (s.nextId,
   { s with
     items := s.items ++ [(s.nextId, mkFetchCacheItem input opts lifespan now)],
     nextId := s.nextId + 1,
     transportCalls := s.transportCalls ++ [s.nextId] })

/-- `this.tags.forEach(tag => FetchSuspense.fetchCache[tag].push(newFetchItem))`
(src/fetch-suspense.ts line 111): push the same reference onto every tag. -/
def registerAll (tags : List String) (id : Nat)
    (cache : List (String × List Nat)) : List (String × List Nat) :=
  tags.foldl (fun c tag => setTag c tag (getTag c tag ++ [id])) cache

/-- Result of the synchronous, suspense-style `fetch`: it throws the stored
error, returns the stored response, or throws the (pending) fetch promise of
the item with the given id. -/
inductive FetchOutcome where
  | threwError (e : Err)
  | returned (v : Val)
  | threwPromise (id : Nat)
deriving DecidableEq

namespace FetchSuspense

/-- `fetch` (src/fetch-suspense.ts lines 99-113), for an instance with tag
list `tags` at time `now`: find a live matching item; throw its error if set,
else return its response if set, else throw its promise; on miss construct a
new item, register it under every tag, and throw the new promise. -/
def fetch (tags : List String) (input : RequestInfo)
    (opts : Option RequestInit) (lifespan : Nat) (now : Nat)
    (s : CacheState) : FetchOutcome × CacheState :=
  match findFetchItem tags s input opts with
  | some (id, existingFetchItem) =>
    match existingFetchItem.error, existingFetchItem.response with
    | some e, _ => (FetchOutcome.threwError e, s)
    | none, some v => (FetchOutcome.returned v, s)
    | none, none => (FetchOutcome.threwPromise id, s)
  | none =>
    let r := createItem input opts lifespan now s
    (FetchOutcome.threwPromise r.1,
     { r.2 with fetchCache := registerAll tags r.1 r.2.fetchCache })

/-- `nonReactFetch` (src/fetch-suspense.ts lines 121-131): same matching, but
it returns (the id of) the item whose `getPromise()` the caller awaits,
creating and registering a new item on miss. -/
def nonReactFetch (tags : List String) (input : RequestInfo)
    (opts : Option RequestInit) (lifespan : Nat) (now : Nat)
    (s : CacheState) : Nat × CacheState :=
  match findFetchItem tags s input opts with
  | some (id, _) => (id, s)
  | none =>
    let r := createItem input opts lifespan now s
    (r.1, { r.2 with fetchCache := registerAll tags r.1 r.2.fetchCache })

/-- `hasOneOfTheseTags` (src/fetch-suspense.ts lines 50-52), for the instance
with tag list `instTags`: `this.tags.some(tag => tags.includes(tag))`. -/
def hasOneOfTheseTags (instTags : List String) (tags : List String) : Bool :=
  instTags.any (fun tag => tags.contains tag)

/-- The instances notified by an `elementsExpired` emission from an instance
with tag list `tags` (src/fetch-suspense.ts line 153 and alike):
`instances.forEach(instance => instance.hasOneOfTheseTags(this.tags) ? instance.emit(...) : null)`. -/
def notifiedInstances (tags : List String) (s : CacheState) :
    List (List String) :=
  s.instances.filter (fun inst => hasOneOfTheseTags inst tags)

/-- `matchingItem.setExpired()` through a reference: flip the `expired` flag
of the heap cell `id` (every tag sequence holding this id sees the change). -/
def setExpiredById (s : CacheState) (id : Nat) : CacheState :=
  { s with
    items := s.items.map
      (fun p => if p.1 = id then (p.1, p.2.setExpired) else p) }

/-- The `while (matchingItem != null)` loop shared by `forceExpireURL` and
`forceExpireRequest` (src/fetch-suspense.ts lines 148-151 and 166-169),
written with explicit fuel: each iteration force-expires one live matching
item, so `s.items.length` iterations always suffice
(`forceExpireBy_find_none` below proves the loop indeed runs to no-match). -/
def expireLoop (tags : List String) (p : FetchCacheItem → Bool) :
    Nat → CacheState → CacheState
  | 0, s => s
  | fuel + 1, s =>
    match findFetchBy s p tags with
    | some (id, _) => expireLoop tags p fuel (setExpiredById s id)
    | none => s

/-- The common shape of `forceExpireURL` / `forceExpireRequest`
(src/fetch-suspense.ts lines 145-156 and 163-174): if a match exists,
force-expire matches until none remain, emit `elementsExpired` to every
instance sharing a tag, and clean this instance's tags; otherwise do
nothing.  Returns the new state and the list of notified instances. -/
def forceExpireBy (tags : List String) (p : FetchCacheItem → Bool)
    (s : CacheState) : CacheState × List (List String) :=
  match findFetchBy s p tags with
  | some _ =>
    (cleanCache tags (expireLoop tags p s.items.length s),
     notifiedInstances tags s)
  | none => (s, [])

/-- `forceExpireRequest` (src/fetch-suspense.ts lines 163-174). -/
def forceExpireRequest (tags : List String) (input : RequestInfo)
    (opts : Option RequestInit) (s : CacheState) :
    CacheState × List (List String) :=
  forceExpireBy tags (fun item => item.argsEqual input opts) s

/-- `forceExpireURL` (src/fetch-suspense.ts lines 145-156). -/
def forceExpireURL (tags : List String) (url : String) (s : CacheState) :
    CacheState × List (List String) :=
  forceExpireBy tags (fun item => item.urlEqual url) s

/-- `wipeCache` (src/fetch-suspense.ts lines 179-182): unconditionally reset
every one of this instance's tags to `[]`, then emit `elementsExpired` to
every instance sharing a tag — with no emptiness or match condition. -/
def wipeCache (tags : List String) (s : CacheState) :
    CacheState × List (List String) :=
  ({ s with
     fetchCache := tags.foldl (fun c tag => setTag c tag []) s.fetchCache },
   notifiedInstances tags s)

/-- `uriIsInCache` (src/fetch-suspense.ts lines 137-139). -/
def uriIsInCache (tags : List String) (url : String) (s : CacheState) :
    Bool :=
  (findFetchURL tags s url).isSome

end FetchSuspense

/-- Fire every due expiry timer: the JS event loop runs each pending
`setTimeout` callback whose delay has elapsed before later application code
runs, so at time `now` every item whose (nonzero-lifespan) timer is due is
expired. -/
def fireTimers (now : Nat) (s : CacheState) : CacheState :=
  { s with
    items := s.items.map (fun p => (p.1, FetchCacheItem.fireTimer now p.2)) }

/-- Settle the fetch promise of heap cell `id` with transport result `res`
(the completion callback of `generateFetch` mutates only its own item). -/
def settleById (s : CacheState) (id : Nat) (res : TransportResult) :
    CacheState :=
  { s with
    items := s.items.map
      (fun p => if p.1 = id then (p.1, p.2.settleFetch res) else p) }

/-! Basic lemmas about the state helpers. -/

theorem lookupItem_cons (q : Nat) (v : FetchCacheItem)
    (rest : List (Nat × FetchCacheItem)) (a : Nat) :
    lookupItem ((q, v) :: rest) a =
      if q = a then some v else lookupItem rest a := rfl

theorem getTag_cons (q : String) (v : List Nat)
    (rest : List (String × List Nat)) (tag : String) :
    getTag ((q, v) :: rest) tag =
      if q = tag then v else getTag rest tag := rfl

theorem setTag_cons (q : String) (v : List Nat)
    (rest : List (String × List Nat)) (tag : String) (ids : List Nat) :
    setTag ((q, v) :: rest) tag ids =
      if q = tag then (tag, ids) :: rest else (q, v) :: setTag rest tag ids :=
  rfl

theorem findInTag_cons (s : CacheState) (p : FetchCacheItem → Bool) (a : Nat)
    (rest : List Nat) :
    findInTag s p (a :: rest) =
      match lookupItem s.items a with
      | some item =>
        if p item && !item.isExpired then some (a, item)
        else findInTag s p rest
      | none => findInTag s p rest := rfl

theorem findFetchBy_cons (s : CacheState) (p : FetchCacheItem → Bool)
    (tag : String) (rest : List String) :
    findFetchBy s p (tag :: rest) =
      match findInTag s p (getTag s.fetchCache tag) with
      | some r => some r
      | none => findFetchBy s p rest := rfl

theorem getTag_setTag (c : List (String × List Nat)) (t u : String)
    (l : List Nat) :
    getTag (setTag c t l) u = if u = t then l else getTag c u := by
  induction c with
  | nil =>
    by_cases h : u = t
    · subst h; simp [setTag, getTag]
    · simp [setTag, getTag, h, Ne.symm h]
  | cons p rest ih =>
    obtain ⟨q, v⟩ := p
    rw [setTag_cons]
    by_cases h1 : q = t
    · rw [if_pos h1, getTag_cons, getTag_cons]
      by_cases h2 : u = t
      · rw [if_pos h2.symm, if_pos h2]
      · rw [if_neg (fun h : t = u => h2 h.symm), if_neg h2,
          if_neg (fun h : q = u => h2 (h1.symm.trans h).symm)]
    · rw [if_neg h1, getTag_cons, getTag_cons]
      by_cases h2 : q = u
      · rw [if_pos h2, if_pos h2,
          if_neg (fun h : u = t => h1 (h2.trans h))]
      · rw [if_neg h2, if_neg h2, ih]

theorem lookupItem_append (l l2 : List (Nat × FetchCacheItem)) (a : Nat) :
    lookupItem (l ++ l2) a =
      match lookupItem l a with
      | some x => some x
      | none => lookupItem l2 a := by
  induction l with
  | nil => simp [lookupItem]
  | cons p rest ih =>
    obtain ⟨q, v⟩ := p
    by_cases h : q = a <;> simp [lookupItem_cons, h, ih]

theorem lookupItem_map_keyed (l : List (Nat × FetchCacheItem)) (a : Nat)
    (g : Nat → FetchCacheItem → FetchCacheItem) :
    lookupItem (l.map (fun p => (p.1, g p.1 p.2))) a =
      (lookupItem l a).map (g a) := by
  induction l with
  | nil => simp [lookupItem]
  | cons p rest ih =>
    obtain ⟨q, v⟩ := p
    by_cases h : q = a
    · subst h; simp [lookupItem_cons, ih]
    · simp [lookupItem_cons, h, ih]

theorem expireById_fun_eq (id : Nat) :
    (fun p : Nat × FetchCacheItem =>
        if p.1 = id then (p.1, p.2.setExpired) else p) =
      (fun p : Nat × FetchCacheItem =>
        (p.1, if p.1 = id then p.2.setExpired else p.2)) := by
  funext p
  by_cases h : p.1 = id <;> simp [h]

theorem lookupItem_setExpiredById (s : CacheState) (id a : Nat) :
    lookupItem (FetchSuspense.setExpiredById s id).items a =
      if a = id then (lookupItem s.items a).map FetchCacheItem.setExpired
      else lookupItem s.items a := by
  show lookupItem (s.items.map _) a = _
  rw [expireById_fun_eq]
  refine Eq.trans (lookupItem_map_keyed s.items a
    (fun k item => if k = id then item.setExpired else item)) ?_
  by_cases h : a = id
  · subst h; cases lookupItem s.items a <;> simp
  · cases lookupItem s.items a <;> simp [h]

theorem settleById_fun_eq (id : Nat) (res : TransportResult) :
    (fun p : Nat × FetchCacheItem =>
        if p.1 = id then (p.1, p.2.settleFetch res) else p) =
      (fun p : Nat × FetchCacheItem =>
        (p.1, if p.1 = id then p.2.settleFetch res else p.2)) := by
  funext p
  by_cases h : p.1 = id <;> simp [h]

theorem lookupItem_settleById (s : CacheState) (id : Nat)
    (res : TransportResult) (a : Nat) :
    lookupItem (settleById s id res).items a =
      if a = id then (lookupItem s.items a).map
        (fun item => item.settleFetch res)
      else lookupItem s.items a := by
  show lookupItem (s.items.map _) a = _
  rw [settleById_fun_eq]
  refine Eq.trans (lookupItem_map_keyed s.items a
    (fun k item => if k = id then item.settleFetch res else item)) ?_
  by_cases h : a = id
  · subst h; cases lookupItem s.items a <;> simp
  · cases lookupItem s.items a <;> simp [h]

theorem lookupItem_fireTimers (s : CacheState) (now : Nat) (a : Nat) :
    lookupItem (fireTimers now s).items a =
      (lookupItem s.items a).map (FetchCacheItem.fireTimer now) := by
  show lookupItem (s.items.map _) a = _
  exact lookupItem_map_keyed s.items a (fun _ item => item.fireTimer now)

/-! Characterizations of the find scans. -/

theorem findInTag_eq_some (s : CacheState) (p : FetchCacheItem → Bool)
    (ids : List Nat) (id : Nat) (item : FetchCacheItem)
    (h : findInTag s p ids = some (id, item)) :
    id ∈ ids ∧ lookupItem s.items id = some item ∧ p item = true ∧
      item.isExpired = false := by
  induction ids with
  | nil => simp [findInTag] at h
  | cons a rest ih =>
    rw [findInTag_cons] at h
    cases hl : lookupItem s.items a with
    | none =>
      rw [hl] at h
      have := ih h
      exact ⟨List.mem_cons_of_mem a this.1, this.2⟩
    | some it =>
      rw [hl] at h
      simp only at h
      by_cases hp : (p it && !it.isExpired) = true
      · rw [if_pos hp] at h
        simp only [Option.some.injEq, Prod.mk.injEq] at h
        obtain ⟨h1, h2⟩ := h
        subst h1
        subst h2
        have hexp : it.isExpired = false := by
          revert hp; cases it.isExpired <;> simp
        simp only [Bool.and_eq_true] at hp
        exact ⟨List.mem_cons_self a rest, hl, hp.1, hexp⟩
      · rw [if_neg hp] at h
        have := ih h
        exact ⟨List.mem_cons_of_mem a this.1, this.2⟩

theorem findInTag_eq_none_iff (s : CacheState) (p : FetchCacheItem → Bool)
    (ids : List Nat) :
    findInTag s p ids = none ↔
      ∀ id ∈ ids, ∀ item, lookupItem s.items id = some item →
        (p item && !item.isExpired) = false := by
  induction ids with
  | nil => simp [findInTag]
  | cons a rest ih =>
    rw [findInTag_cons]
    cases hl : lookupItem s.items a with
    | none =>
      simp only [ih]
      constructor
      · intro h id hid item hitem
        rcases List.mem_cons.1 hid with h1 | h1
        · subst h1; rw [hl] at hitem; exact absurd hitem (by simp)
        · exact h id h1 item hitem
      · intro h id hid item hitem
        exact h id (List.mem_cons_of_mem a hid) item hitem
    | some it =>
      simp only
      by_cases hp : (p it && !it.isExpired) = true
      · rw [if_pos hp]
        constructor
        · intro h; exact absurd h (by simp)
        · intro h
          have h2 := h a (List.mem_cons_self a rest) it hl
          rw [hp] at h2
          exact absurd h2 (by simp)
      · rw [if_neg hp, ih]
        constructor
        · intro h id hid item hitem
          rcases List.mem_cons.1 hid with h1 | h1
          · subst h1; rw [hl] at hitem
            simp only [Option.some.injEq] at hitem
            subst hitem
            exact Bool.eq_false_iff.2 hp
          · exact h id h1 item hitem
        · intro h id hid item hitem
          exact h id (List.mem_cons_of_mem a hid) item hitem

theorem findFetchBy_eq_some (s : CacheState) (p : FetchCacheItem → Bool)
    (tags : List String) (id : Nat) (item : FetchCacheItem)
    (h : findFetchBy s p tags = some (id, item)) :
    (∃ tag ∈ tags, id ∈ getTag s.fetchCache tag) ∧
      lookupItem s.items id = some item ∧ p item = true ∧
      item.isExpired = false := by
  induction tags with
  | nil => simp [findFetchBy] at h
  | cons tag rest ih =>
    rw [findFetchBy_cons] at h
    cases hf : findInTag s p (getTag s.fetchCache tag) with
    | none =>
      rw [hf] at h
      obtain ⟨⟨t, ht, hmem⟩, h2⟩ := ih h
      exact ⟨⟨t, List.mem_cons_of_mem tag ht, hmem⟩, h2⟩
    | some r =>
      rw [hf] at h
      simp only [Option.some.injEq] at h
      subst h
      obtain ⟨hmem, h2⟩ := findInTag_eq_some s p _ id item hf
      exact ⟨⟨tag, List.mem_cons_self tag rest, hmem⟩, h2⟩

theorem findFetchBy_eq_none_iff (s : CacheState) (p : FetchCacheItem → Bool)
    (tags : List String) :
    findFetchBy s p tags = none ↔
      ∀ tag ∈ tags, findInTag s p (getTag s.fetchCache tag) = none := by
  induction tags with
  | nil => simp [findFetchBy]
  | cons tag rest ih =>
    rw [findFetchBy_cons]
    cases hf : findInTag s p (getTag s.fetchCache tag) with
    | none =>
      simp only [ih]
      constructor
      · intro h t ht
        rcases List.mem_cons.1 ht with h1 | h1
        · subst h1; exact hf
        · exact h t h1
      · intro h t ht
        exact h t (List.mem_cons_of_mem tag ht)
    | some r =>
      simp only
      constructor
      · intro h; exact absurd h (by simp)
      · intro h
        have h2 := h tag (List.mem_cons_self tag rest)
        rw [hf] at h2
        exact absurd h2 (by simp)

/-! The while-loop of the force-expire operations terminates with no match
left: each iteration strictly decreases the number of live matching heap
cells, which is at most `s.items.length`, the fuel used in `forceExpireBy`. -/

def liveCount (p : FetchCacheItem → Bool)
    (l : List (Nat × FetchCacheItem)) : Nat :=
  (l.filter (fun q => p q.2 && !q.2.isExpired)).length

theorem liveCount_cons (p : FetchCacheItem → Bool) (k : Nat)
    (v : FetchCacheItem) (rest : List (Nat × FetchCacheItem)) :
    liveCount p ((k, v) :: rest) =
      (if p v && !v.isExpired then 1 else 0) + liveCount p rest := by
  by_cases h : (p v && !v.isExpired) = true
  · simp [liveCount, List.filter_cons, h]
    omega
  · simp [liveCount, List.filter_cons, h]

theorem liveCount_le_length (p : FetchCacheItem → Bool)
    (l : List (Nat × FetchCacheItem)) : liveCount p l ≤ l.length :=
  List.length_filter_le _ l

theorem setExpired_dead (p : FetchCacheItem → Bool) (v : FetchCacheItem) :
    (p v.setExpired && !v.setExpired.isExpired) = false := by
  simp [FetchCacheItem.setExpired, FetchCacheItem.isExpired]

theorem liveCount_map_setExpired_le (p : FetchCacheItem → Bool) (id : Nat)
    (l : List (Nat × FetchCacheItem)) :
    liveCount p
        (l.map (fun q => if q.1 = id then (q.1, q.2.setExpired) else q)) ≤
      liveCount p l := by
  induction l with
  | nil => simp [liveCount]
  | cons q rest ih =>
    obtain ⟨k, v⟩ := q
    by_cases hk : k = id
    · simp only [List.map_cons]
      rw [if_pos hk, liveCount_cons, liveCount_cons, setExpired_dead]
      by_cases hv : (p v && !v.isExpired) = true <;> simp [hv] <;> omega
    · simp only [List.map_cons]
      rw [if_neg hk, liveCount_cons, liveCount_cons]
      by_cases hv : (p v && !v.isExpired) = true <;> simp [hv] <;> omega

theorem liveCount_pos_of_lookup (p : FetchCacheItem → Bool) (id : Nat)
    (item : FetchCacheItem) (l : List (Nat × FetchCacheItem))
    (hl : lookupItem l id = some item)
    (hp : (p item && !item.isExpired) = true) : 0 < liveCount p l := by
  induction l with
  | nil => simp [lookupItem] at hl
  | cons q rest ih =>
    obtain ⟨k, v⟩ := q
    rw [lookupItem_cons] at hl
    by_cases hk : k = id
    · rw [if_pos hk] at hl
      have hv : v = item := by simpa using hl
      subst hv
      rw [liveCount_cons, hp]
      simp
    · rw [if_neg hk] at hl
      rw [liveCount_cons]
      have := ih hl
      omega

theorem liveCount_map_setExpired_lt (p : FetchCacheItem → Bool) (id : Nat)
    (item : FetchCacheItem) (l : List (Nat × FetchCacheItem))
    (hl : lookupItem l id = some item)
    (hp : (p item && !item.isExpired) = true) :
    liveCount p
        (l.map (fun q => if q.1 = id then (q.1, q.2.setExpired) else q)) <
      liveCount p l := by
  induction l with
  | nil => simp [lookupItem] at hl
  | cons q rest ih =>
    obtain ⟨k, v⟩ := q
    rw [lookupItem_cons] at hl
    by_cases hk : k = id
    · rw [if_pos hk] at hl
      have hv : v = item := by simpa using hl
      subst hv
      simp only [List.map_cons]
      rw [if_pos hk, liveCount_cons, liveCount_cons, setExpired_dead, hp]
      have := liveCount_map_setExpired_le p id rest
      simp
      omega
    · rw [if_neg hk] at hl
      simp only [List.map_cons]
      rw [if_neg hk, liveCount_cons, liveCount_cons]
      have := ih hl
      by_cases hv : (p v && !v.isExpired) = true <;> simp [hv] <;> omega

theorem expireLoop_succ_eq (tags : List String) (p : FetchCacheItem → Bool)
    (fuel : Nat) (s : CacheState) :
    FetchSuspense.expireLoop tags p (fuel + 1) s =
      match findFetchBy s p tags with
      | some (id, _) =>
        FetchSuspense.expireLoop tags p fuel (FetchSuspense.setExpiredById s id)
      | none => s := rfl

theorem expireLoop_find_none (tags : List String) (p : FetchCacheItem → Bool)
    (fuel : Nat) :
    ∀ s : CacheState, liveCount p s.items ≤ fuel →
      findFetchBy (FetchSuspense.expireLoop tags p fuel s) p tags = none := by
  induction fuel with
  | zero =>
    intro s hle
    rw [show FetchSuspense.expireLoop tags p 0 s = s from rfl]
    cases hf : findFetchBy s p tags with
    | none => rfl
    | some r =>
      obtain ⟨id, item⟩ := r
      obtain ⟨_, hlook, hp, hexp⟩ := findFetchBy_eq_some s p tags id item hf
      have hpos := liveCount_pos_of_lookup p id item s.items hlook
        (by simp [hp, hexp])
      omega
  | succ fuel ih =>
    intro s hle
    cases hf : findFetchBy s p tags with
    | none =>
      simp only [expireLoop_succ_eq, hf]
    | some r =>
      obtain ⟨id, item⟩ := r
      simp only [expireLoop_succ_eq, hf]
      apply ih
      obtain ⟨_, hlook, hp, hexp⟩ := findFetchBy_eq_some s p tags id item hf
      have hlt := liveCount_map_setExpired_lt p id item s.items hlook
        (by simp [hp, hexp])
      show liveCount p (s.items.map _) ≤ fuel
      omega

theorem forceExpireBy_no_match (tags : List String)
    (p : FetchCacheItem → Bool) (s : CacheState)
    (h : findFetchBy s p tags = none) :
    FetchSuspense.forceExpireBy tags p s = (s, []) := by
  simp only [FetchSuspense.forceExpireBy, h]

/-! Cleanup passes only drop references, so they cannot create matches. -/

theorem mem_getTag_foldl_setTag (ts : List String)
    (f : String → List Nat → List Nat)
    (hf : ∀ t l, ∀ a ∈ f t l, a ∈ l) :
    ∀ c tag a,
      a ∈ getTag (ts.foldl (fun c t => setTag c t (f t (getTag c t))) c) tag →
        a ∈ getTag c tag := by
  induction ts with
  | nil => intro c tag a h; exact h
  | cons t rest ih =>
    intro c tag a h
    rw [List.foldl_cons] at h
    have h2 := ih (setTag c t (f t (getTag c t))) tag a h
    rw [getTag_setTag] at h2
    by_cases ht : tag = t
    · rw [if_pos ht] at h2
      subst ht
      exact hf tag (getTag c tag) a h2
    · rw [if_neg ht] at h2
      exact h2

theorem mem_getTag_cleanCache (tags2 : List String) (s : CacheState)
    (tag : String) (a : Nat)
    (h : a ∈ getTag (cleanCache tags2 s).fetchCache tag) :
    a ∈ getTag s.fetchCache tag := by
  refine mem_getTag_foldl_setTag tags2
    (fun _ l => l.filter (fun id => match lookupItem s.items id with
      | some item => !item.isExpired
      | none => true))
    (fun _ l a ha => (List.mem_filter.1 ha).1) s.fetchCache tag a ?_
  exact h

theorem findFetchBy_cleanCache_none (s : CacheState)
    (p : FetchCacheItem → Bool) (tags tags2 : List String)
    (h : findFetchBy s p tags = none) :
    findFetchBy (cleanCache tags2 s) p tags = none := by
  rw [findFetchBy_eq_none_iff] at h ⊢
  intro tag htag
  rw [findInTag_eq_none_iff]
  intro id hid item hitem
  have hid2 : id ∈ getTag s.fetchCache tag := mem_getTag_cleanCache tags2 s tag id hid
  have h2 := h tag htag
  rw [findInTag_eq_none_iff] at h2
  exact h2 id hid2 item hitem

theorem forceExpireBy_find_none (tags : List String)
    (p : FetchCacheItem → Bool) (s : CacheState) :
    findFetchBy (FetchSuspense.forceExpireBy tags p s).1 p tags = none := by
  cases hf : findFetchBy s p tags with
  | none =>
    rw [forceExpireBy_no_match tags p s hf]
    exact hf
  | some r =>
    have h1 : (FetchSuspense.forceExpireBy tags p s).1 =
        cleanCache tags
          (FetchSuspense.expireLoop tags p s.items.length s) := by
      simp only [FetchSuspense.forceExpireBy, hf]
    rw [h1]
    apply findFetchBy_cleanCache_none
    exact expireLoop_find_none tags p s.items.length s
      (liveCount_le_length p s.items)

theorem forceExpireBy_idem (tags : List String) (p : FetchCacheItem → Bool)
    (s : CacheState) :
    FetchSuspense.forceExpireBy tags p
        (FetchSuspense.forceExpireBy tags p s).1 =
      ((FetchSuspense.forceExpireBy tags p s).1, []) :=
  forceExpireBy_no_match tags p _ (forceExpireBy_find_none tags p s)

/-! Registration pushes the same reference under every tag. -/

theorem registerAll_nil (id : Nat) (c : List (String × List Nat)) :
    registerAll [] id c = c := rfl

theorem registerAll_cons (t : String) (ts : List String) (id : Nat)
    (c : List (String × List Nat)) :
    registerAll (t :: ts) id c =
      registerAll ts id (setTag c t (getTag c t ++ [id])) := rfl

theorem mem_getTag_registerAll_mono (ts : List String) (id : Nat) :
    ∀ c tag, id ∈ getTag c tag → id ∈ getTag (registerAll ts id c) tag := by
  induction ts with
  | nil => intro c tag h; exact h
  | cons t rest ih =>
    intro c tag h
    rw [registerAll_cons]
    apply ih
    rw [getTag_setTag]
    by_cases ht : tag = t
    · rw [if_pos ht]
      subst ht
      exact List.mem_append_left _ h
    · rw [if_neg ht]
      exact h

theorem mem_getTag_registerAll (ts : List String) (id : Nat) :
    ∀ c tag, tag ∈ ts → id ∈ getTag (registerAll ts id c) tag := by
  induction ts with
  | nil => intro c tag h; exact absurd h (List.not_mem_nil tag)
  | cons t rest ih =>
    intro c tag h
    rw [registerAll_cons]
    by_cases ht : tag = t
    · apply mem_getTag_registerAll_mono
      rw [getTag_setTag, if_pos ht]
      exact List.mem_append_right _ (List.mem_singleton.2 rfl)
    · rcases List.mem_cons.1 h with h1 | h1
      · exact absurd h1 ht
      · exact ih _ tag h1

theorem mem_getTag_registerAll_inv (ts : List String) (id : Nat) :
    ∀ c tag a, a ∈ getTag (registerAll ts id c) tag →
      a ∈ getTag c tag ∨ a = id := by
  induction ts with
  | nil => intro c tag a h; exact Or.inl h
  | cons t rest ih =>
    intro c tag a h
    rw [registerAll_cons] at h
    rcases ih _ tag a h with h1 | h1
    · rw [getTag_setTag] at h1
      by_cases ht : tag = t
      · rw [if_pos ht] at h1
        rcases List.mem_append.1 h1 with h2 | h2
        · subst ht; exact Or.inl h2
        · exact Or.inr (List.mem_singleton.1 h2)
      · rw [if_neg ht] at h1
        exact Or.inl h1
    · exact Or.inr h1

/-! Wiping resets every tag of the instance to the empty sequence. -/

theorem getTag_foldl_setTag_nil_empty (ts : List String) :
    ∀ c tag, getTag c tag = [] →
      getTag (ts.foldl (fun c t => setTag c t []) c) tag = [] := by
  induction ts with
  | nil => intro c tag h; exact h
  | cons t rest ih =>
    intro c tag h
    rw [List.foldl_cons]
    apply ih
    rw [getTag_setTag]
    by_cases ht : tag = t
    · rw [if_pos ht]
    · rw [if_neg ht]; exact h

theorem getTag_foldl_setTag_nil (ts : List String) :
    ∀ c tag, tag ∈ ts →
      getTag (ts.foldl (fun c t => setTag c t []) c) tag = [] := by
  induction ts with
  | nil => intro c tag h; exact absurd h (List.not_mem_nil tag)
  | cons t rest ih =>
    intro c tag h
    rw [List.foldl_cons]
    by_cases ht : tag = t
    · apply getTag_foldl_setTag_nil_empty
      rw [getTag_setTag, if_pos ht]
    · rcases List.mem_cons.1 h with h1 | h1
      · exact absurd h1 ht
      · exact ih _ tag h1

/-! State equation for the miss branch of the synchronous fetch. -/

theorem fetch_miss_state (tags : List String) (input : RequestInfo)
    (opts : Option RequestInit) (lifespan now : Nat) (s : CacheState)
    (hmiss : findFetchItem tags s input opts = none) :
    FetchSuspense.fetch tags input opts lifespan now s =
      (FetchOutcome.threwPromise s.nextId,
       { s with
         items := s.items ++
           [(s.nextId, mkFetchCacheItem input opts lifespan now)],
         nextId := s.nextId + 1,
         transportCalls := s.transportCalls ++ [s.nextId],
         fetchCache := registerAll tags s.nextId s.fetchCache }) := by
  simp [FetchSuspense.fetch, hmiss, createItem]

/-- C1: the synchronous lookup decides its outcome in the fixed priority
order error, then response, then pending promise, then entry creation; the
matching scan skips expired entries and the first match (in caller-given tag
order) wins. -/
theorem fetch_priority_order (tags : List String) (input : RequestInfo)
    (opts : Option RequestInit) (lifespan now : Nat) (s : CacheState) :
    (∀ id item, findFetchItem tags s input opts = some (id, item) →
      (item.argsEqual input opts = true ∧ item.isExpired = false) ∧
      (∀ e, item.error = some e →
        FetchSuspense.fetch tags input opts lifespan now s =
          (FetchOutcome.threwError e, s)) ∧
      (∀ v, item.error = none → item.response = some v →
        FetchSuspense.fetch tags input opts lifespan now s =
          (FetchOutcome.returned v, s)) ∧
      (item.error = none → item.response = none →
        FetchSuspense.fetch tags input opts lifespan now s =
          (FetchOutcome.threwPromise id, s))) ∧
    (findFetchItem tags s input opts = none →
      FetchSuspense.fetch tags input opts lifespan now s =
        (FetchOutcome.threwPromise s.nextId,
         { s with
           items := s.items ++
             [(s.nextId, mkFetchCacheItem input opts lifespan now)],
           nextId := s.nextId + 1,
           transportCalls := s.transportCalls ++ [s.nextId],
           fetchCache := registerAll tags s.nextId s.fetchCache })) ∧
    (∀ tag rest r,
      findInTag s (fun item => item.argsEqual input opts)
          (getTag s.fetchCache tag) = some r →
        findFetchItem (tag :: rest) s input opts = some r) ∧
    (∀ id item rest, lookupItem s.items id = some item →
      item.isExpired = true →
        findInTag s (fun item => item.argsEqual input opts) (id :: rest) =
          findInTag s (fun item => item.argsEqual input opts) rest) := by
  refine ⟨?_, fetch_miss_state tags input opts lifespan now s, ?_, ?_⟩
  · intro id item hfind
    obtain ⟨_, _, hp, hexp⟩ := findFetchBy_eq_some s _ tags id item hfind
    refine ⟨⟨hp, hexp⟩, ?_, ?_, ?_⟩
    · intro e herr
      simp only [FetchSuspense.fetch, hfind, herr]
    · intro v herr hresp
      simp only [FetchSuspense.fetch, hfind, herr, hresp]
    · intro herr hresp
      simp only [FetchSuspense.fetch, hfind, herr, hresp]
  · intro tag rest r hf
    show findFetchBy s _ (tag :: rest) = some r
    rw [findFetchBy_cons, hf]
  · intro id item rest hlook hexp
    simp [findInTag_cons, hlook, hexp]

def c1Item : FetchCacheItem :=
  ⟨RequestInfo.url "u", none, 0, 0, some 7, none, false⟩

def c1State : CacheState :=
  ⟨[(0, c1Item)], [("a", [0])], [["a"]], 1, [0]⟩

/-- C1 witness: at a concrete state holding a failed entry, the synchronous
lookup throws the stored error. -/
theorem fetch_priority_order_witness :
    FetchSuspense.fetch ["a"] (RequestInfo.url "u") none 0 0 c1State =
      (FetchOutcome.threwError 7, c1State) :=
  ((fetch_priority_order ["a"] (RequestInfo.url "u") none 0 0 c1State).1
    0 c1Item rfl).2.1 7 rfl

/-- C2: the flat-list `forceExpireRequest` removes an entry whose input
matches even when its options differ (and one whose options match even when
its input differs), keeping an entry only when both components differ:
`!deepEqual(input) && !deepEqual(opts)` instead of the negated
conjunction. -/
theorem flat_forceExpireRequest_partial_match_removed :
    FlatFetchSuspense.forceExpireRequest
        [⟨RequestInfo.url "a", some ⟨[("method", "POST")]⟩, none, some 1⟩]
        (RequestInfo.url "a") (some ⟨[("method", "GET")]⟩) = [] ∧
    FlatFetchSuspense.forceExpireRequest
        [⟨RequestInfo.url "b", some ⟨[("method", "GET")]⟩, none, some 2⟩]
        (RequestInfo.url "a") (some ⟨[("method", "GET")]⟩) = [] ∧
    FlatFetchSuspense.forceExpireRequest
        [⟨RequestInfo.url "b", some ⟨[("method", "POST")]⟩, none, some 3⟩]
        (RequestInfo.url "a") (some ⟨[("method", "GET")]⟩) =
      [⟨RequestInfo.url "b", some ⟨[("method", "POST")]⟩, none, some 3⟩] := by
  decide

/-- C4: once a live matching entry exists, a lookup (synchronous or
asynchronous) finds it and leaves the state untouched — no new entry and no
new transport call — and if the entry has succeeded with value `v`, the
synchronous lookup returns `v` and the awaited promise resolves with `v`. -/
theorem fetch_found_no_new_transport (tags : List String)
    (input : RequestInfo) (opts : Option RequestInit) (lifespan now : Nat)
    (s : CacheState) (id : Nat) (item : FetchCacheItem)
    (hfind : findFetchItem tags s input opts = some (id, item)) :
    (FetchSuspense.fetch tags input opts lifespan now s).2 = s ∧
    (FetchSuspense.fetch tags input opts lifespan now s).2.transportCalls =
      s.transportCalls ∧
    FetchSuspense.nonReactFetch tags input opts lifespan now s = (id, s) ∧
    (∀ v, item.error = none → item.response = some v →
      (FetchSuspense.fetch tags input opts lifespan now s).1 =
        FetchOutcome.returned v ∧
      item.getPromiseResult = Except.ok (some v)) := by
  have hstate : (FetchSuspense.fetch tags input opts lifespan now s).2 = s := by
    simp only [FetchSuspense.fetch, hfind]
    cases item.error <;> cases item.response <;> rfl
  refine ⟨hstate, by rw [hstate], ?_, ?_⟩
  · simp only [FetchSuspense.nonReactFetch, hfind]
  · intro v herr hresp
    constructor
    · simp only [FetchSuspense.fetch, hfind, herr, hresp]
    · simp [FetchCacheItem.getPromiseResult, herr, hresp]

def c4Item : FetchCacheItem :=
  ⟨RequestInfo.url "u", none, 0, 0, none, some 5, false⟩

def c4State : CacheState :=
  ⟨[(0, c4Item)], [("a", [0])], [["a"]], 1, [0]⟩

/-- C4 witness: at a concrete state with a succeeded entry, both lookups find
it, leave the state unchanged, and the value is returned. -/
theorem fetch_found_no_new_transport_witness :
    FetchSuspense.nonReactFetch ["a"] (RequestInfo.url "u") none 0 0 c4State =
      (0, c4State) ∧
    (FetchSuspense.fetch ["a"] (RequestInfo.url "u") none 0 0 c4State).1 =
      FetchOutcome.returned 5 := by
  have h := fetch_found_no_new_transport ["a"] (RequestInfo.url "u") none 0 0
    c4State 0 c4Item rfl
  exact ⟨h.2.2.1, (h.2.2.2 5 rfl rfl).1⟩

/-- C6: a transport or decoding error is captured into the entry as a failed
outcome; every subsequent matching synchronous lookup rethrows the stored
error with no state change (so no retry), and the awaited promise rejects
with the same error. -/
theorem failed_outcome_replayed (tags : List String) (input : RequestInfo)
    (opts : Option RequestInit) (lifespan now : Nat) (s : CacheState)
    (id : Nat) (item : FetchCacheItem) (e : Err)
    (hfind : findFetchItem tags s input opts = some (id, item))
    (herr : item.error = some e) :
    FetchSuspense.fetch tags input opts lifespan now s =
      (FetchOutcome.threwError e, s) ∧
    item.getPromiseResult = Except.error e ∧
    FetchSuspense.nonReactFetch tags input opts lifespan now s = (id, s) ∧
    (∀ it : FetchCacheItem, ∀ e2 : Err,
      (it.settleFetch (TransportResult.failure e2)).error = some e2 ∧
      (it.settleFetch (TransportResult.failure e2)).response = it.response ∧
      (it.settleFetch (TransportResult.failure e2)).expired = it.expired) := by
  refine ⟨?_, ?_, ?_, fun it e2 => ⟨rfl, rfl, rfl⟩⟩
  · simp only [FetchSuspense.fetch, hfind, herr]
  · simp [FetchCacheItem.getPromiseResult, herr]
  · simp only [FetchSuspense.nonReactFetch, hfind]

def c6Item : FetchCacheItem :=
  ⟨RequestInfo.url "u", none, 0, 0, some 9, none, false⟩

def c6State : CacheState :=
  ⟨[(0, c6Item)], [("a", [0])], [["a"]], 1, [0]⟩

/-- C6 witness: at a concrete state with a failed entry, the stored error is
rethrown and the promise rejects with it. -/
theorem failed_outcome_replayed_witness :
    FetchSuspense.fetch ["a"] (RequestInfo.url "u") none 0 0 c6State =
      (FetchOutcome.threwError 9, c6State) ∧
    c6Item.getPromiseResult = Except.error 9 := by
  have h := failed_outcome_replayed ["a"] (RequestInfo.url "u") none 0 0
    c6State 0 c6Item 9 rfl rfl
  exact ⟨h.1, h.2.1⟩

/-- C7: the expired flag only ever goes false → true — `setExpired` sets it
and is idempotent, settling a fetch or a non-due timer never changes it, and
a fired timer never resets it; forced expiry does not cancel or alter the
in-flight fetch (completion commutes with expiry and all other fields are
untouched); no timer exists for lifespan 0. -/
theorem expired_monotonic_idempotent (item : FetchCacheItem)
    (res : TransportResult) (now : Nat) :
    item.setExpired.expired = true ∧
    item.setExpired.setExpired = item.setExpired ∧
    (item.settleFetch res).expired = item.expired ∧
    (item.expired = true → (item.fireTimer now).expired = true) ∧
    item.setExpired.settleFetch res = (item.settleFetch res).setExpired ∧
    (item.setExpired.input = item.input ∧ item.setExpired.opts = item.opts ∧
      item.setExpired.error = item.error ∧
      item.setExpired.response = item.response) ∧
    (item.lifespan = 0 → item.fireTimer now = item) ∧
    ((item.fireTimer now).expired = false → item.expired = false) := by
  refine ⟨rfl, rfl, ?_, ?_, ?_, ⟨rfl, rfl, rfl, rfl⟩, ?_, ?_⟩
  · cases res <;> rfl
  · intro h
    simp only [FetchCacheItem.fireTimer]
    by_cases hc : item.lifespan ≠ 0 ∧ item.createdAt + item.lifespan ≤ now
    · rw [if_pos hc]; rfl
    · rw [if_neg hc]; exact h
  · cases res <;> rfl
  · intro h
    simp only [FetchCacheItem.fireTimer]
    rw [if_neg]
    intro hc
    exact hc.1 h
  · intro h
    simp only [FetchCacheItem.fireTimer] at h
    by_cases hc : item.lifespan ≠ 0 ∧ item.createdAt + item.lifespan ≤ now
    · rw [if_pos hc] at h
      exact absurd h (by simp [FetchCacheItem.setExpired])
    · rw [if_neg hc] at h
      exact h

def c7Item : FetchCacheItem :=
  ⟨RequestInfo.url "u", none, 3, 0, none, none, true⟩

/-- C7 witness: an already-expired entry stays expired when its timer
fires. -/
theorem expired_monotonic_idempotent_witness :
    (c7Item.fireTimer 5).expired = true := by
  have h := expired_monotonic_idempotent c7Item
    (TransportResult.success none) 5
  exact h.2.2.2.1 rfl

/-- C10: a fetch that succeeds with a decoded `null` body leaves both
`error` and `response` null, so the synchronous lookup cannot distinguish it
from a pending entry and throws the already-settled promise, while the
asynchronous path resolves with the null value. -/
theorem null_response_pending_branch (tags : List String)
    (input : RequestInfo) (opts : Option RequestInit) (lifespan now : Nat)
    (s : CacheState) (id : Nat) (item : FetchCacheItem)
    (herr : item.error = none)
    (hfind : findFetchItem tags s input opts =
      some (id, item.settleFetch (TransportResult.success none))) :
    (item.settleFetch (TransportResult.success none)).response = none ∧
    (item.settleFetch (TransportResult.success none)).error = none ∧
    (item.settleFetch (TransportResult.success none)).getPromiseResult =
      Except.ok none ∧
    FetchSuspense.fetch tags input opts lifespan now s =
      (FetchOutcome.threwPromise id, s) := by
  refine ⟨rfl, herr, ?_, ?_⟩
  · simp [FetchCacheItem.settleFetch, FetchCacheItem.getPromiseResult, herr]
  · have h1 : (item.settleFetch (TransportResult.success none)).error = none :=
      herr
    have h2 : (item.settleFetch (TransportResult.success none)).response =
      none := rfl
    simp only [FetchSuspense.fetch, hfind, h1, h2]

def c10Item : FetchCacheItem :=
  ⟨RequestInfo.url "u", none, 0, 0, none, none, false⟩

def c10State : CacheState :=
  ⟨[(0, c10Item.settleFetch (TransportResult.success none))],
   [("a", [0])], [["a"]], 1, [0]⟩

/-- C10 witness: at a concrete state whose entry settled with a null body,
the synchronous lookup throws the promise while the promise resolves with
null. -/
theorem null_response_pending_branch_witness :
    FetchSuspense.fetch ["a"] (RequestInfo.url "u") none 0 0 c10State =
      (FetchOutcome.threwPromise 0, c10State) ∧
    (c10Item.settleFetch
      (TransportResult.success none)).getPromiseResult = Except.ok none := by
  have h := null_response_pending_branch ["a"] (RequestInfo.url "u") none 0 0
    c10State 0 c10Item rfl rfl
  exact ⟨h.2.2.2, h.2.2.1⟩

/-- C8: `wipeCache` clears every tag of the instance and notifies every
intersecting instance unconditionally (also on already-empty tags), while
`forceExpireURL` / `forceExpireRequest` notify only when a match was found:
with no match they change nothing and notify nobody, and a second
consecutive invocation finds nothing and is a harmless no-op. -/
theorem wipe_unconditional_expire_conditional (tags : List String)
    (url : String) (input : RequestInfo) (opts : Option RequestInit)
    (s : CacheState) :
    (FetchSuspense.wipeCache tags s).2 =
      FetchSuspense.notifiedInstances tags s ∧
    (∀ tag ∈ tags,
      getTag (FetchSuspense.wipeCache tags s).1.fetchCache tag = []) ∧
    (findFetchURL tags s url = none →
      FetchSuspense.forceExpireURL tags url s = (s, [])) ∧
    (findFetchItem tags s input opts = none →
      FetchSuspense.forceExpireRequest tags input opts s = (s, [])) ∧
    FetchSuspense.forceExpireRequest tags input opts
        (FetchSuspense.forceExpireRequest tags input opts s).1 =
      ((FetchSuspense.forceExpireRequest tags input opts s).1, []) ∧
    FetchSuspense.forceExpireURL tags url
        (FetchSuspense.forceExpireURL tags url s).1 =
      ((FetchSuspense.forceExpireURL tags url s).1, []) := by
  refine ⟨rfl, ?_, ?_, ?_, ?_, ?_⟩
  · intro tag htag
    exact getTag_foldl_setTag_nil tags s.fetchCache tag htag
  · intro h
    exact forceExpireBy_no_match tags _ s h
  · intro h
    exact forceExpireBy_no_match tags _ s h
  · exact forceExpireBy_idem tags _ s
  · exact forceExpireBy_idem tags _ s

def c8State : CacheState := ⟨[], [("x", [])], [["x"], ["y"]], 0, []⟩

/-- C8 witness: wiping an already-empty tag still notifies the subscriber of
that tag, while expiring by URL on the empty tag notifies nobody and is a
no-op. -/
theorem wipe_unconditional_expire_conditional_witness :
    (FetchSuspense.wipeCache ["x"] c8State).2 = [["x"]] ∧
    FetchSuspense.forceExpireURL ["x"] "u" c8State = (c8State, []) := by
  have h := wipe_unconditional_expire_conditional ["x"] "u"
    (RequestInfo.url "u") none c8State
  exact ⟨h.1.trans (by decide), h.2.2.1 (by decide)⟩

/-! A freshly registered entry is the first live match in every tag it was
pushed onto. -/

theorem findInTag_first_id (s : CacheState) (p : FetchCacheItem → Bool)
    (id : Nat) (item : FetchCacheItem)
    (hlook : lookupItem s.items id = some item)
    (hp : (p item && !item.isExpired) = true) :
    ∀ ids : List Nat, id ∈ ids →
      (∀ a ∈ ids, a ≠ id → ∀ it, lookupItem s.items a = some it →
        (p it && !it.isExpired) = false) →
      findInTag s p ids = some (id, item) := by
  intro ids
  induction ids with
  | nil => intro h _; exact absurd h (List.not_mem_nil id)
  | cons a rest ih =>
    intro hmem hfail
    rw [findInTag_cons]
    by_cases ha : a = id
    · subst ha
      simp only [hlook]
      rw [if_pos hp]
    · cases hl : lookupItem s.items a with
      | none =>
        simp only [hl]
        refine ih ?_ ?_
        · rcases List.mem_cons.1 hmem with h1 | h1
          · exact absurd h1.symm ha
          · exact h1
        · exact fun b hb hbne it2 hit =>
            hfail b (List.mem_cons_of_mem a hb) hbne it2 hit
      | some it =>
        simp only [hl]
        have hdead := hfail a (List.mem_cons_self a rest) ha it hl
        rw [if_neg (by simp [hdead])]
        refine ih ?_ ?_
        · rcases List.mem_cons.1 hmem with h1 | h1
          · exact absurd h1.symm ha
          · exact h1
        · exact fun b hb hbne it2 hit =>
            hfail b (List.mem_cons_of_mem a hb) hbne it2 hit

/-- C5: a lookup-on-miss creates one entry and pushes the same reference
(heap id) onto every tag of the caller's tag set; the entry is then found by
a lookup scoped to any nonempty subset of those tags. -/
theorem fetch_miss_registers_shared (tags qtags : List String)
    (input : RequestInfo) (opts : Option RequestInit) (lifespan now : Nat)
    (s : CacheState)
    (hmiss : findFetchItem tags s input opts = none)
    (hfresh : lookupItem s.items s.nextId = none)
    (hsub : ∀ t ∈ qtags, t ∈ tags) (hne : qtags ≠ []) :
    lookupItem (FetchSuspense.fetch tags input opts lifespan now s).2.items
        s.nextId = some (mkFetchCacheItem input opts lifespan now) ∧
    (∀ tag ∈ tags, s.nextId ∈
      getTag (FetchSuspense.fetch tags input opts lifespan now s).2.fetchCache
        tag) ∧
    findFetchItem qtags
        (FetchSuspense.fetch tags input opts lifespan now s).2 input opts =
      some (s.nextId, mkFetchCacheItem input opts lifespan now) := by
  have hs := fetch_miss_state tags input opts lifespan now s hmiss
  have hsitems :
      (FetchSuspense.fetch tags input opts lifespan now s).2.items =
        s.items ++ [(s.nextId, mkFetchCacheItem input opts lifespan now)] := by
    rw [hs]
  have hscache :
      (FetchSuspense.fetch tags input opts lifespan now s).2.fetchCache =
        registerAll tags s.nextId s.fetchCache := by
    rw [hs]
  have hlook2 :
      lookupItem (FetchSuspense.fetch tags input opts lifespan now s).2.items
        s.nextId = some (mkFetchCacheItem input opts lifespan now) := by
    rw [hsitems, lookupItem_append, hfresh]
    simp [lookupItem_cons]
  refine ⟨hlook2, ?_, ?_⟩
  · intro tag htag
    rw [hscache]
    exact mem_getTag_registerAll tags s.nextId s.fetchCache tag htag
  · cases qtags with
    | nil => exact absurd rfl hne
    | cons t rest2 =>
      have htag : t ∈ tags := hsub t (List.mem_cons_self t rest2)
      have hfit : findInTag
          (FetchSuspense.fetch tags input opts lifespan now s).2
          (fun item => item.argsEqual input opts)
          (getTag
            (FetchSuspense.fetch tags input opts lifespan now s).2.fetchCache
            t) =
          some (s.nextId, mkFetchCacheItem input opts lifespan now) := by
        refine findInTag_first_id _ _ _ _ hlook2
          (by simp [mkFetchCacheItem, FetchCacheItem.argsEqual,
            FetchCacheItem.isExpired]) _ ?_ ?_
        · rw [hscache]
          exact mem_getTag_registerAll tags s.nextId s.fetchCache t htag
        · intro a hAmem haNe it hit
          rw [hscache] at hAmem
          rcases mem_getTag_registerAll_inv tags s.nextId s.fetchCache t a
            hAmem with hOld | hEq
          · rw [hsitems, lookupItem_append] at hit
            cases hOldLook : lookupItem s.items a with
            | some x =>
              simp only [hOldLook, Option.some.injEq] at hit
              subst hit
              have hnone := (findFetchBy_eq_none_iff s _ tags).1 hmiss t htag
              exact (findInTag_eq_none_iff s _
                (getTag s.fetchCache t)).1 hnone a hOld x hOldLook
            | none =>
              simp only [hOldLook, lookupItem_cons] at hit
              rw [if_neg (fun h => haNe h.symm)] at hit
              exact absurd hit (by simp [lookupItem])
          · exact absurd hEq haNe
      show findFetchBy _ (fun item => item.argsEqual input opts)
        (t :: rest2) = _
      rw [findFetchBy_cons, hfit]

def c5State : CacheState := ⟨[], [("a", []), ("b", [])], [["a", "b"]], 0, []⟩

/-- C5 witness: an entry created under tags a and b is found by a lookup
scoped to b alone. -/
theorem fetch_miss_registers_shared_witness :
    findFetchItem ["b"]
        (FetchSuspense.fetch ["a", "b"] (RequestInfo.url "u") none 0 0
          c5State).2 (RequestInfo.url "u") none =
      some (0, mkFetchCacheItem (RequestInfo.url "u") none 0 0) := by
  have h := fetch_miss_registers_shared ["a", "b"] ["b"] (RequestInfo.url "u")
    none 0 0 c5State rfl rfl (by decide) (by decide)
  exact h.2.2

/-- C9: entry construction issues the transport call immediately; a timer
exists iff the lifespan is nonzero (lifespan 0 never auto-expires); with the
entry succeeded under a positive lifespan, a lookup before expiry returns
the cached value with no new transport call, and a lookup at or after expiry
misses and issues a fresh transport call. -/
theorem lifespan_timer_contract (tag : String) (input : RequestInfo)
    (opts : Option RequestInit) (lifespan2 t : Nat) (s : CacheState)
    (id : Nat) (item : FetchCacheItem) (v : Val)
    (hlook : lookupItem s.items id = some item)
    (hargs : item.argsEqual input opts = true)
    (hexp : item.expired = false)
    (herr : item.error = none)
    (hresp : item.response = some v)
    (hpos : 0 < item.lifespan)
    (htag : getTag s.fetchCache tag = [id]) :
    (createItem input opts lifespan2 t s).2.transportCalls =
      s.transportCalls ++ [s.nextId] ∧
    (t < item.createdAt + item.lifespan →
      FetchSuspense.fetch [tag] input opts lifespan2 t (fireTimers t s) =
        (FetchOutcome.returned v, fireTimers t s)) ∧
    (item.createdAt + item.lifespan ≤ t →
      (FetchSuspense.fetch [tag] input opts lifespan2 t
          (fireTimers t s)).1 = FetchOutcome.threwPromise s.nextId ∧
      (FetchSuspense.fetch [tag] input opts lifespan2 t
          (fireTimers t s)).2.transportCalls =
        s.transportCalls ++ [s.nextId]) ∧
    (∀ it : FetchCacheItem, it.lifespan = 0 → it.fireTimer t = it) := by
  refine ⟨rfl, ?_, ?_, ?_⟩
  · intro hbefore
    have htimer : item.fireTimer t = item := by
      simp only [FetchCacheItem.fireTimer]
      rw [if_neg]
      rintro ⟨h1, h2⟩
      omega
    have hlook2 : lookupItem (fireTimers t s).items id = some item := by
      rw [lookupItem_fireTimers, hlook]
      simp [htimer]
    have hfit : findInTag (fireTimers t s)
        (fun it => it.argsEqual input opts) [id] = some (id, item) := by
      rw [findInTag_cons]
      simp only [hlook2]
      rw [if_pos (by simp [hargs, FetchCacheItem.isExpired, hexp])]
    have hfind : findFetchItem [tag] (fireTimers t s) input opts =
        some (id, item) := by
      show findFetchBy _ _ [tag] = _
      rw [findFetchBy_cons,
        show getTag (fireTimers t s).fetchCache tag = [id] from htag, hfit]
    simp only [FetchSuspense.fetch, hfind, herr, hresp]
  · intro hafter
    have htimer2 : item.fireTimer t = item.setExpired := by
      simp only [FetchCacheItem.fireTimer]
      rw [if_pos ⟨by omega, hafter⟩]
    have hmiss2 : findFetchItem [tag] (fireTimers t s) input opts = none := by
      show findFetchBy _ _ [tag] = none
      rw [findFetchBy_eq_none_iff]
      intro tg htg
      have htg2 : tg = tag := by
        rcases List.mem_cons.1 htg with h | h
        · exact h
        · exact absurd h (List.not_mem_nil tg)
      subst htg2
      rw [show getTag (fireTimers t s).fetchCache tg = [id] from htag]
      rw [findInTag_eq_none_iff]
      intro a ha it hit
      have ha2 : a = id := by
        rcases List.mem_cons.1 ha with h | h
        · exact h
        · exact absurd h (List.not_mem_nil a)
      subst ha2
      rw [lookupItem_fireTimers, hlook] at hit
      simp only [Option.map, Option.some.injEq] at hit
      subst hit
      simp [htimer2, FetchCacheItem.setExpired, FetchCacheItem.isExpired]
    rw [fetch_miss_state [tag] input opts lifespan2 t (fireTimers t s) hmiss2]
    exact ⟨rfl, rfl⟩
  · intro it h0
    simp only [FetchCacheItem.fireTimer]
    rw [if_neg]
    rintro ⟨h1, _⟩
    exact h1 h0

def c9Item : FetchCacheItem :=
  ⟨RequestInfo.url "u", none, 10, 0, none, some 3, false⟩

def c9State : CacheState :=
  ⟨[(0, c9Item)], [("a", [0])], [["a"]], 1, [0]⟩

/-- C9 witness: with lifespan 10, a lookup at time 5 returns the cached
value, and a lookup at time 10 misses and issues transport call 1. -/
theorem lifespan_timer_contract_witness :
    FetchSuspense.fetch ["a"] (RequestInfo.url "u") none 0 5
        (fireTimers 5 c9State) =
      (FetchOutcome.returned 3, fireTimers 5 c9State) ∧
    (FetchSuspense.fetch ["a"] (RequestInfo.url "u") none 0 10
        (fireTimers 10 c9State)).1 = FetchOutcome.threwPromise 1 := by
  have h5 := lifespan_timer_contract "a" (RequestInfo.url "u") none 0 5
    c9State 0 c9Item 3 rfl rfl rfl rfl rfl (by decide) rfl
  have h10 := lifespan_timer_contract "a" (RequestInfo.url "u") none 0 10
    c9State 0 c9Item 3 rfl rfl rfl rfl rfl (by decide) rfl
  exact ⟨h5.2.1 (by decide), (h10.2.2.1 (by decide)).1⟩

/-! One loop iteration suffices when the single live match is gone after
expiring it. -/

theorem expireLoop_succ_some_then_none (tags : List String)
    (p : FetchCacheItem → Bool) (fuel : Nat) (s : CacheState) (id : Nat)
    (item : FetchCacheItem)
    (h1 : findFetchBy s p tags = some (id, item))
    (h2 : findFetchBy (FetchSuspense.setExpiredById s id) p tags = none) :
    FetchSuspense.expireLoop tags p (fuel + 1) s =
      FetchSuspense.setExpiredById s id := by
  simp only [expireLoop_succ_eq, h1]
  cases fuel with
  | zero => rfl
  | succ fuel2 => simp only [expireLoop_succ_eq, h2]

def c3Start : CacheState := ⟨[], [("a", []), ("b", [])], [["a"], ["b"]], 0, []⟩

def c3Registered : CacheState :=
  (FetchSuspense.fetch ["a", "b"] (RequestInfo.url "u") none 0 0 c3Start).2

def c3Settled : CacheState :=
  settleById c3Registered 0 (TransportResult.success (some 42))

def c3Expired : CacheState :=
  (FetchSuspense.forceExpireRequest ["a"] (RequestInfo.url "u") none
    c3Settled).1

/-- C3 counterexample: an entry registered under tags a and b and then
force-expired through the instance scoped to a is NOT visible to a lookup
scoped to b (the expired flag lives on the shared object), and the next
lookup under b issues a second transport call — contrary to the claim's
"leaves it visible to lookups scoped to b … does not re-trigger the
underlying transport fetch". -/
theorem forceExpire_other_tag_counterexample :
    findFetchItem ["b"] c3Expired (RequestInfo.url "u") none = none ∧
    (FetchSuspense.fetch ["b"] (RequestInfo.url "u") none 0 0
      c3Expired).2.transportCalls = [0, 1] := by
  decide

/-- C3 amended: force-expiring via tag a flips the shared entry's global
expired flag, making it unreachable under every tag including b, while the
reference remains in tag b's stored sequence until a cleanup pass touches b;
a subsequent lookup under b for the same identity misses and re-triggers the
transport fetch. -/
theorem forceExpire_shared_flag_amended (input : RequestInfo)
    (opts : Option RequestInit) (lifespan now : Nat) (s : CacheState)
    (id : Nat) (item : FetchCacheItem)
    (hitems : s.items = [(id, item)])
    (hargs : item.argsEqual input opts = true)
    (hexp : item.expired = false)
    (ha : getTag s.fetchCache "a" = [id])
    (hb : getTag s.fetchCache "b" = [id]) :
    lookupItem (FetchSuspense.forceExpireRequest ["a"] input opts s).1.items
        id = some item.setExpired ∧
    getTag (FetchSuspense.forceExpireRequest ["a"] input opts s).1.fetchCache
        "a" = [] ∧
    getTag (FetchSuspense.forceExpireRequest ["a"] input opts s).1.fetchCache
        "b" = [id] ∧
    findFetchItem ["b"]
        (FetchSuspense.forceExpireRequest ["a"] input opts s).1 input opts =
      none ∧
    (FetchSuspense.fetch ["b"] input opts lifespan now
        (FetchSuspense.forceExpireRequest ["a"] input opts s).1).1 =
      FetchOutcome.threwPromise s.nextId ∧
    (FetchSuspense.fetch ["b"] input opts lifespan now
        (FetchSuspense.forceExpireRequest ["a"] input opts
          s).1).2.transportCalls =
      s.transportCalls ++ [s.nextId] := by
  obtain ⟨items0, fc, inst, nid, tc⟩ := s
  replace hitems : items0 = [(id, item)] := hitems
  subst hitems
  replace ha : getTag fc "a" = [id] := ha
  replace hb : getTag fc "b" = [id] := hb
  have hlook : lookupItem
      (⟨[(id, item)], fc, inst, nid, tc⟩ : CacheState).items id =
      some item := by
    simp [lookupItem_cons]
  have hfind0 : findFetchBy (⟨[(id, item)], fc, inst, nid, tc⟩ : CacheState)
      (fun it => it.argsEqual input opts) ["a"] = some (id, item) := by
    have hfit : findInTag (⟨[(id, item)], fc, inst, nid, tc⟩ : CacheState)
        (fun it => it.argsEqual input opts) [id] = some (id, item) := by
      rw [findInTag_cons]
      simp only [hlook]
      rw [if_pos (by simp [hargs, FetchCacheItem.isExpired, hexp])]
    rw [findFetchBy_cons, show getTag
      (⟨[(id, item)], fc, inst, nid, tc⟩ : CacheState).fetchCache "a" = [id]
      from ha, hfit]
  have hsetexp : FetchSuspense.setExpiredById
      (⟨[(id, item)], fc, inst, nid, tc⟩ : CacheState) id =
      ⟨[(id, item.setExpired)], fc, inst, nid, tc⟩ := by
    simp [FetchSuspense.setExpiredById]
  have hlookdead : lookupItem
      (⟨[(id, item.setExpired)], fc, inst, nid, tc⟩ : CacheState).items id =
      some item.setExpired := by
    simp [lookupItem_cons]
  have hnomatch : ∀ tg : String,
      getTag (⟨[(id, item.setExpired)], fc, inst, nid, tc⟩ :
        CacheState).fetchCache tg = [id] →
      findInTag (⟨[(id, item.setExpired)], fc, inst, nid, tc⟩ : CacheState)
        (fun it => it.argsEqual input opts)
        (getTag (⟨[(id, item.setExpired)], fc, inst, nid, tc⟩ :
          CacheState).fetchCache tg) = none := by
    intro tg htg
    rw [htg, findInTag_eq_none_iff]
    intro a haMem it hit
    have ha2 : a = id := by
      rcases List.mem_cons.1 haMem with h | h
      · exact h
      · exact absurd h (List.not_mem_nil a)
    subst ha2
    rw [hlookdead] at hit
    simp only [Option.some.injEq] at hit
    subst hit
    simp [FetchCacheItem.setExpired, FetchCacheItem.isExpired]
  have hafter : findFetchBy (FetchSuspense.setExpiredById
      (⟨[(id, item)], fc, inst, nid, tc⟩ : CacheState) id)
      (fun it => it.argsEqual input opts) ["a"] = none := by
    rw [hsetexp, findFetchBy_eq_none_iff]
    intro tg htg
    have htg2 : tg = "a" := by
      rcases List.mem_cons.1 htg with h | h
      · exact h
      · exact absurd h (List.not_mem_nil tg)
    subst htg2
    exact hnomatch "a" ha
  have hloop : FetchSuspense.expireLoop ["a"]
      (fun it => it.argsEqual input opts)
      ((⟨[(id, item)], fc, inst, nid, tc⟩ : CacheState).items.length)
      ⟨[(id, item)], fc, inst, nid, tc⟩ =
      FetchSuspense.setExpiredById
        (⟨[(id, item)], fc, inst, nid, tc⟩ : CacheState) id :=
    expireLoop_succ_some_then_none ["a"] _ 0 _ id item hfind0 hafter
  have hclean : cleanCache ["a"]
      (⟨[(id, item.setExpired)], fc, inst, nid, tc⟩ : CacheState) =
      ⟨[(id, item.setExpired)], setTag fc "a" [], inst, nid, tc⟩ := by
    simp [cleanCache, ha, lookupItem_cons, FetchCacheItem.isExpired,
      FetchCacheItem.setExpired]
  have hfinal : (FetchSuspense.forceExpireRequest ["a"] input opts
      ⟨[(id, item)], fc, inst, nid, tc⟩).1 =
      ⟨[(id, item.setExpired)], setTag fc "a" [], inst, nid, tc⟩ := by
    show (FetchSuspense.forceExpireBy _ _ _).1 = _
    simp only [FetchSuspense.forceExpireBy, hfind0, hloop, hsetexp, hclean]
  have hgb : getTag (setTag fc "a" []) "b" = [id] := by
    rw [getTag_setTag, if_neg (by decide), hb]
  have hmiss4 : findFetchItem ["b"]
      (⟨[(id, item.setExpired)], setTag fc "a" [], inst, nid, tc⟩ :
        CacheState) input opts = none := by
    show findFetchBy _ _ ["b"] = none
    rw [findFetchBy_eq_none_iff]
    intro tg htg
    have htg2 : tg = "b" := by
      rcases List.mem_cons.1 htg with h | h
      · exact h
      · exact absurd h (List.not_mem_nil tg)
    subst htg2
    rw [show getTag (⟨[(id, item.setExpired)], setTag fc "a" [], inst, nid,
      tc⟩ : CacheState).fetchCache "b" = [id] from hgb]
    rw [findInTag_eq_none_iff]
    intro a haMem it hit
    have ha2 : a = id := by
      rcases List.mem_cons.1 haMem with h | h
      · exact h
      · exact absurd h (List.not_mem_nil a)
    rw [ha2] at hit
    rw [show lookupItem (⟨[(id, item.setExpired)], setTag fc "a" [], inst,
      nid, tc⟩ : CacheState).items id = some item.setExpired from
      (by simp [lookupItem_cons])] at hit
    simp only [Option.some.injEq] at hit
    subst hit
    simp [FetchCacheItem.setExpired, FetchCacheItem.isExpired]
  refine ⟨?_, ?_, ?_, ?_, ?_, ?_⟩
  · rw [hfinal]
    simp [lookupItem_cons]
  · rw [hfinal]
    show getTag (setTag fc "a" []) "a" = []
    rw [getTag_setTag, if_pos rfl]
  · rw [hfinal]
    exact hgb
  · rw [hfinal]
    exact hmiss4
  · rw [hfinal, fetch_miss_state ["b"] input opts lifespan now _ hmiss4]
  · rw [hfinal, fetch_miss_state ["b"] input opts lifespan now _ hmiss4]

def c3wItem : FetchCacheItem :=
  ⟨RequestInfo.url "w", none, 0, 0, none, some 8, false⟩

def c3wState : CacheState :=
  ⟨[(0, c3wItem)], [("a", [0]), ("b", [0])], [["a"], ["b"]], 1, [0]⟩

/-- C3 witness for the amended statement at a concrete state: after expiry
via a, the reference is still stored under b but invisible to lookups
under b. -/
theorem forceExpire_shared_flag_amended_witness :
    getTag (FetchSuspense.forceExpireRequest ["a"] (RequestInfo.url "w")
      none c3wState).1.fetchCache "b" = [0] ∧
    findFetchItem ["b"] (FetchSuspense.forceExpireRequest ["a"]
      (RequestInfo.url "w") none c3wState).1 (RequestInfo.url "w") none =
      none := by
  have h := forceExpire_shared_flag_amended (RequestInfo.url "w") none 0 0
    c3wState 0 c3wItem rfl rfl rfl rfl rfl
  exact ⟨h.2.2.1, h.2.2.2.1⟩
